import Mathlib

/-!
Verification of the model-selection subsystem of the curam-ai MCP agent.

The embedded functions come from the repository's JavaScript sources:
`analyzeTask` and `selectOptimalModel` (src/server.js lines 299-390, with
identical copies in src/unnamed/part_000 lines 141-232), the per-model
settlement logic of the `compare_all_models` handler (src/unnamed/part_000
lines 556-603 and src/unnamed/part_001 lines 736-773), and the Gemini call
wrappers of the HTTP-server variant (src/server.js lines 30-64).

Modelling conventions:
- JavaScript strings are Lean `String`s (all literals involved are ASCII, so
  UTF-16 length and Lean length agree).
- The machine-remote interactions (axios calls, `JSON.parse`) are abstracted
  by their outcome, passed as an explicit argument (`Except`/`Option`).
- `Array.prototype.sort` with the comparator `(a, b) => b.score - a.score`
  is, per the ECMAScript specification, a stable sort; its result is the
  unique stable descending-by-score permutation, which we compute with a
  stable insertion sort (`sortDesc`).
- JavaScript indexing `xs[0]`, which yields `undefined` on an empty array,
  is modelled with `List.head?`.
-/

namespace CuramMCP

/-- JS `String.prototype.includes` on char lists: contiguous, case-sensitive
substring test. -/
def containsSeq (needle : List Char) : List Char → Bool
  | [] => needle.isEmpty
  | c :: rest => needle.isPrefixOf (c :: rest) || containsSeq needle rest

/-- JS `s.includes(sub)`. -/
def jsIncludes (s sub : String) : Bool := containsSeq sub.toList s.toList

/-- The five-field task-analysis object built by the fallback branch of
`analyzeTask` (src/server.js lines 316-323). Field values are plain strings,
as in the JS object literal. -/
structure TaskAnalysis where
  task_type : String
  complexity : String
  requirements : List String
  estimated_tokens : Nat
  priority : String
deriving Repr, DecidableEq

/-- The result of `JSON.parse` on the remote classifier's response, restricted
to the five fields `analyzeTask`'s consumers look at. `JSON.parse` performs no
schema validation, so every field may be absent. -/
structure ParsedAnalysis where
  task_type : Option String
  complexity : Option String
  requirements : Option (List String)
  estimated_tokens : Option Nat
  priority : Option String
deriving Repr, DecidableEq

/-- View a fully-populated analysis as a parsed value (all fields present). -/
def TaskAnalysis.toParsed (t : TaskAnalysis) : ParsedAnalysis :=
  { task_type := some t.task_type
    complexity := some t.complexity
    requirements := some t.requirements
    estimated_tokens := some t.estimated_tokens
    priority := some t.priority }

/-- All five required TaskAnalysis fields are present. -/
def ParsedAnalysis.hasAllFields (p : ParsedAnalysis) : Bool :=
  p.task_type.isSome && p.complexity.isSome && p.requirements.isSome &&
    p.estimated_tokens.isSome && p.priority.isSome

/-- The fallback analysis computed in the catch branch of `analyzeTask`
(src/server.js lines 316-323):
`task_type` from the 100-character threshold, `complexity` from the 200/50
thresholds, `requirements` from the case-sensitive substring "creative",
`estimated_tokens = Math.ceil(length / 4)` (embedded as exact natural ceiling
division), `priority` always "balance". -/
def fallbackAnalysis (taskInput : String) : TaskAnalysis :=
  { task_type := if taskInput.length > 100 then "complex_analysis" else "simple_question"
    complexity :=
      if taskInput.length > 200 then "high"
      else if taskInput.length > 50 then "medium" else "low"
    requirements := if jsIncludes taskInput "creative" then ["creativity"] else ["accuracy"]
    estimated_tokens := (taskInput.length + 3) / 4
    priority := "balance" }

/-- `analyzeTask` (src/server.js lines 299-325). The remote leg —
`JSON.parse(await callGeminiPro(analysisPrompt))` — is abstracted by its
outcome `remoteParse`: `some j` when the response string parsed as JSON
(yielding the object `j`), `none` when the call or `JSON.parse` threw.
The try/catch returns the parsed object unchanged on success (there is no
field validation in the source) and the local fallback on any failure. -/
def analyzeTask (remoteParse : Option ParsedAnalysis) (taskInput : String) : ParsedAnalysis :=
  match remoteParse with
  | some j => j
  | none => (fallbackAnalysis taskInput).toParsed

/-- One entry of the fixed model catalog inside `selectOptimalModel`
(src/server.js lines 328-365). -/
structure ModelDescriptor where
  id : String
  name : String
  provider : String
  characteristics : List String
  bestFor : List String
  cost : String
  speed : String
deriving Repr, DecidableEq

def gemini_flash_model : ModelDescriptor :=
  { id := "gemini_flash", name := "Gemini 1.5 Flash", provider := "Google"
    characteristics := ["speed", "efficiency"]
    bestFor := ["simple_questions", "quick_responses"]
    cost := "low", speed := "fast" }

def gemini_pro_model : ModelDescriptor :=
  { id := "gemini_pro", name := "Gemini 1.5 Pro", provider := "Google"
    characteristics := ["reasoning", "analysis"]
    bestFor := ["complex_analysis", "reasoning"]
    cost := "medium", speed := "medium" }

def gpt2_model : ModelDescriptor :=
  { id := "gpt2", name := "GPT-2", provider := "Hugging Face"
    characteristics := ["creative_writing", "text_generation"]
    bestFor := ["creative_writing", "story_generation"]
    cost := "very_low", speed := "medium" }

def bert_model : ModelDescriptor :=
  { id := "bert-base-uncased", name := "BERT", provider := "Hugging Face"
    characteristics := ["text_understanding", "classification"]
    bestFor := ["text_analysis", "classification"]
    cost := "very_low", speed := "fast" }

/-- The fixed, inlined model catalog of `selectOptimalModel`
(src/server.js lines 328-365). -/
def models : List ModelDescriptor :=
  [gemini_flash_model, gemini_pro_model, gpt2_model, bert_model]

/-- The score accumulated by the `modelScores` map of `selectOptimalModel`
(src/server.js lines 368-385), mirroring the sequence of conditional
`score +=` statements. -/
def scoreModel (t : TaskAnalysis) (m : ModelDescriptor) : Nat :=
  let score : Nat := 0
  let score := if t.complexity = "low" ∧ m.characteristics.contains "speed" then score + 3 else score
  let score := if t.complexity = "high" ∧ m.characteristics.contains "reasoning" then score + 3 else score
  let score := if t.task_type = "creative_writing" ∧ m.characteristics.contains "creative_writing" then score + 2 else score
  let score := if t.task_type = "classification" ∧ m.characteristics.contains "classification" then score + 2 else score
  let score := if t.task_type = "complex_analysis" ∧ m.characteristics.contains "analysis" then score + 2 else score
  let score := if t.priority = "speed" ∧ m.speed = "fast" then score + 1 else score
  let score := if t.priority = "quality" ∧ m.cost = "medium" then score + 1 else score
  score

/-- A `{ ...model, score }` entry of the `modelScores` array. -/
structure ScoredModel where
  model : ModelDescriptor
  score : Nat
deriving Repr, DecidableEq

/-- The `modelScores` array over an explicit catalog. -/
def modelScoresWith (catalog : List ModelDescriptor) (t : TaskAnalysis) : List ScoredModel :=
  catalog.map (fun m => { model := m, score := scoreModel t m })

/-- The `modelScores` array of the source (fixed catalog). -/
def modelScores (t : TaskAnalysis) : List ScoredModel := modelScoresWith models t

/-- Insert an element into a descending-by-score list, before the first
element of no greater score (given stability: the element being inserted
originates earlier in the unsorted list than everything in `l`). -/
def insertDesc (x : ScoredModel) : List ScoredModel → List ScoredModel
  | [] => [x]
  | y :: ys => if y.score ≤ x.score then x :: y :: ys else y :: insertDesc x ys

/-- Stable descending sort — the unique result of
`modelScores.sort((a, b) => b.score - a.score)` under the ECMAScript
stable-sort guarantee. -/
def sortDesc : List ScoredModel → List ScoredModel
  | [] => []
  | x :: xs => insertDesc x (sortDesc xs)

/-- `selectOptimalModel` generalized over the catalog: sort the scored
entries descending and take index 0 (JS yields `undefined` on an empty
array, modelled by `none`). -/
def selectOptimalModelWith (catalog : List ModelDescriptor) (t : TaskAnalysis) :
    Option ScoredModel :=
  (sortDesc (modelScoresWith catalog t)).head?

/-- `selectOptimalModel` (src/server.js lines 327-390), with its fixed
inlined catalog. -/
def selectOptimalModel (t : TaskAnalysis) : Option ScoredModel :=
  selectOptimalModelWith models t

/-- The reported `confidence_score: selectedModel.score / 10`
(src/server.js line 285, src/unnamed/part_000 line 521). -/
def confidence_score (sm : ScoredModel) : ℚ := (sm.score : ℚ) / 10

/-- Spec-side scoring table (spec section 4.2): the sum of the seven
independent additive criteria, written as the spec states them. -/
def specScore (t : TaskAnalysis) (m : ModelDescriptor) : Nat :=
  (if t.complexity = "low" ∧ m.characteristics.contains "speed" then 3 else 0) +
  (if t.complexity = "high" ∧ m.characteristics.contains "reasoning" then 3 else 0) +
  (if t.task_type = "creative_writing" ∧ m.characteristics.contains "creative_writing" then 2 else 0) +
  (if t.task_type = "classification" ∧ m.characteristics.contains "classification" then 2 else 0) +
  (if t.task_type = "complex_analysis" ∧ m.characteristics.contains "analysis" then 2 else 0) +
  (if t.priority = "speed" ∧ m.speed = "fast" then 1 else 0) +
  (if t.priority = "quality" ∧ m.cost = "medium" then 1 else 0)

/-- Spec-side fallback classification (spec section 4.1), with
`estimatedTokens = ceil(len(taskText) / 4)` taken literally as a rational
ceiling. -/
def specFallback (taskText : String) : TaskAnalysis :=
  { task_type := if taskText.length > 100 then "complex_analysis" else "simple_question"
    complexity :=
      if taskText.length > 200 then "high"
      else if taskText.length > 50 then "medium" else "low"
    requirements := if jsIncludes taskText "creative" then ["creativity"] else ["accuracy"]
    estimated_tokens := Nat.ceil ((taskText.length : ℚ) / 4)
    priority := "balance" }

/-- Spec-side selection (spec section 4.2): the first element of maximal
score, in catalog order. -/
def firstMax? : List ScoredModel → Option ScoredModel
  | [] => none
  | x :: xs =>
    match firstMax? xs with
    | none => some x
    | some y => some (if x.score < y.score then y else x)

/-- One settled per-model record of the `compare_all_models` batch
(src/unnamed/part_000 lines 558-579, src/unnamed/part_001 lines 736-757). -/
structure ModelResult where
  model_id : String
  model_name : String
  response : Option String
  error : Option String
  success : Bool
deriving Repr, DecidableEq

/-- The `(id, name)` entries of the models array of the `compare_all_models`
handler: the two Gemini models, plus the two Hugging Face models when
`include_hugging_face` is set. -/
def compareModelsList (include_hugging_face : Bool) : List (String × String) :=
  [("gemini_flash", "Gemini 1.5 Flash"), ("gemini_pro", "Gemini 1.5 Pro")] ++
    (if include_hugging_face then
      [("gpt2", "GPT-2 (Hugging Face)"), ("bert-base-uncased", "BERT (Hugging Face)")]
    else [])

/-- One arm of `promises = models.map(async (model) => { try ... catch ... })`
in the `compare_all_models` handler: the call outcome (abstracted by `call`)
is caught per model, producing a settled success or failure record, so a
rejection never escapes to `Promise.all`. Timing fields are omitted. -/
def settleModel (call : String → Except String String) (m : String × String) : ModelResult :=
  match call m.1 with
  | .ok r =>
    { model_id := m.1, model_name := m.2, response := some r, error := none, success := true }
  | .error e =>
    { model_id := m.1, model_name := m.2, response := none, error := some e, success := false }

/-- The settled `modelResults` array of the `compare_all_models` handler. -/
def compareAllModels (include_hugging_face : Bool)
    (call : String → Except String String) : List ModelResult :=
  (compareModelsList include_hugging_face).map (settleModel call)

/-- `summary.successful_models = modelResults.filter(r => r.success).length`. -/
def successfulModels (rs : List ModelResult) : Nat := (rs.filter (·.success)).length

/-- A caught axios error in the HTTP-server variant: `error.response?.data?...`
may carry a vendor message, `error.message` always exists. -/
structure VendorFailure where
  apiMessage : Option String
  message : String
deriving Repr, DecidableEq

/-- `error.response?.data?.error?.message || error.message`, with JS
truthiness: an absent or empty vendor message falls through to
`error.message`. -/
def vendorErrorText (f : VendorFailure) : String :=
  match f.apiMessage with
  | some m => if m = "" then f.message else m
  | none => f.message

/-- `callGeminiFlash` of the HTTP-server variant (src/server.js lines 30-46).
The axios call plus text extraction is abstracted by its outcome; the catch
turns any failure into an error string returned as ordinary data. -/
def callGeminiFlash (outcome : Except VendorFailure String) : String :=
  match outcome with
  | .ok text => text
  | .error f => "Gemini Flash Error: " ++ vendorErrorText f

/-- `callGeminiPro` of the HTTP-server variant (src/server.js lines 48-64). -/
def callGeminiPro (outcome : Except VendorFailure String) : String :=
  match outcome with
  | .ok text => text
  | .error f => "Gemini Pro Error: " ++ vendorErrorText f

end CuramMCP

namespace CuramMCP

set_option maxHeartbeats 1000000 in
/-- The sequential `score +=` accumulation equals the spec's seven-term sum. -/
lemma scoreModel_eq_specScore (t : TaskAnalysis) (m : ModelDescriptor) :
    scoreModel t m = specScore t m := by
  unfold scoreModel specScore
  split_ifs <;> rfl

/-- The complexity, task-type and priority criterion groups are mutually
exclusive, so the spec score never exceeds 3 + 2 + 1. -/
lemma specScore_le_six (t : TaskAnalysis) (m : ModelDescriptor) :
    specScore t m ≤ 6 := by
  simp only [specScore]
  split_ifs <;> first | omega | simp_all

lemma scoreModel_le_six (t : TaskAnalysis) (m : ModelDescriptor) :
    scoreModel t m ≤ 6 := scoreModel_eq_specScore t m ▸ specScore_le_six t m

end CuramMCP

namespace CuramMCP

lemma firstMax?_eq_none {l : List ScoredModel} : firstMax? l = none ↔ l = [] := by
  cases l with
  | nil => simp [firstMax?]
  | cons x xs => cases h : firstMax? xs <;> simp [firstMax?, h]

lemma firstMax?_isSome_of_cons (x : ScoredModel) (xs : List ScoredModel) :
    (firstMax? (x :: xs)).isSome = true := by
  cases h : firstMax? xs <;> simp [firstMax?, h]

/-- The head of the stable descending sort is the first element of maximal
score. -/
lemma head?_sortDesc (l : List ScoredModel) : (sortDesc l).head? = firstMax? l := by
  induction l with
  | nil => rfl
  | cons x xs ih =>
    show (insertDesc x (sortDesc xs)).head? = firstMax? (x :: xs)
    cases hs : sortDesc xs with
    | nil =>
      rw [hs] at ih
      simp only [firstMax?, ← ih]
      rfl
    | cons y ys =>
      have hy : firstMax? xs = some y := by rw [← ih, hs]; rfl
      simp only [firstMax?, hy, insertDesc]
      by_cases h : y.score ≤ x.score
      · rw [if_pos h, if_neg (by omega : ¬ x.score < y.score)]
        rfl
      · rw [if_neg h, if_pos (by omega : x.score < y.score)]
        rfl

/-- Characterization of `firstMax?`: its value splits the list into a strict
prefix of strictly smaller scores and carries the maximal score overall. -/
lemma firstMax?_spec {l : List ScoredModel} {sm : ScoredModel}
    (h : firstMax? l = some sm) :
    ∃ pre post, l = pre ++ sm :: post ∧ (∀ x ∈ pre, x.score < sm.score) ∧
      ∀ x ∈ l, x.score ≤ sm.score := by
  induction l generalizing sm with
  | nil => simp [firstMax?] at h
  | cons x xs ih =>
    rcases hs : firstMax? xs with _ | y
    · have hxs : xs = [] := firstMax?_eq_none.mp hs
      subst hxs
      simp only [firstMax?] at h
      cases h
      exact ⟨[], [], rfl, by simp, by simp⟩
    · simp only [firstMax?, hs] at h
      obtain ⟨pre, post, hl, hpre, hall⟩ := ih hs
      by_cases hxy : x.score < y.score
      · rw [if_pos hxy] at h
        cases h
        refine ⟨x :: pre, post, by rw [hl, List.cons_append], ?_, ?_⟩
        · intro z hz
          rcases List.mem_cons.mp hz with rfl | hz'
          · exact hxy
          · exact hpre z hz'
        · intro z hz
          rcases List.mem_cons.mp hz with rfl | hz'
          · exact Nat.le_of_lt hxy
          · exact hall z hz'
      · rw [if_neg hxy] at h
        cases h
        refine ⟨[], xs, rfl, by simp, ?_⟩
        intro z hz
        rcases List.mem_cons.mp hz with rfl | hz'
        · exact Nat.le_refl _
        · exact Nat.le_trans (hall z hz') (Nat.not_lt.mp hxy)

/-- `Math.ceil(n / 4)` as natural ceiling division. -/
lemma ceil_quarter (n : ℕ) : Nat.ceil ((n : ℚ) / 4) = (n + 3) / 4 := by
  rcases Nat.eq_zero_or_pos n with h | h
  · subst h; norm_num
  · obtain ⟨k, hk⟩ : ∃ k, (n + 3) / 4 = k + 1 := ⟨(n + 3) / 4 - 1, by omega⟩
    rw [hk, Nat.ceil_eq_iff (by omega)]
    constructor
    · rw [Nat.add_sub_cancel, lt_div_iff₀ (by norm_num : (0:ℚ) < 4)]
      exact_mod_cast (by omega : k * 4 < n)
    · rw [div_le_iff₀ (by norm_num : (0:ℚ) < 4)]
      exact_mod_cast (by omega : n ≤ (k + 1) * 4)

/-- Selection only reads the `task_type`, `complexity` and `priority` fields
of the analysis. -/
lemma sel_ignores_extras (tt c p : String) (r : List String) (e : Nat) :
    selectOptimalModel ⟨tt, c, r, e, p⟩ = selectOptimalModel ⟨tt, c, [], 0, p⟩ := rfl

end CuramMCP

namespace CuramMCP

/-- A concrete analysis used to instantiate the theorems with hypotheses:
the fallback result for a short, non-"creative" task text. -/
def tW : TaskAnalysis :=
  { task_type := "simple_question", complexity := "low"
    requirements := ["accuracy"], estimated_tokens := 6, priority := "balance" }

/-- The scored catalog entry selected for `tW`: Gemini Flash with score 3. -/
def smW : ScoredModel := { model := gemini_flash_model, score := 3 }

/-- C1: for every TaskAnalysis and every scored catalog entry computed by
`selectOptimalModel`, the score is exactly the sum of the spec's seven
additive criteria — each applied independently, several may fire at once,
and no other condition contributes points. -/
theorem modelScores_additive_criteria (t : TaskAnalysis) (sm : ScoredModel)
    (h : sm ∈ modelScores t) : sm.score = specScore t sm.model := by
  simp only [modelScores, modelScoresWith] at h
  rcases List.mem_map.mp h with ⟨m, _, rfl⟩
  exact scoreModel_eq_specScore t m

theorem modelScores_additive_criteria_witness :
    smW ∈ modelScores tW ∧ smW.score = specScore tW smW.model :=
  ⟨by decide, modelScores_additive_criteria tW smW (by decide)⟩

/-- C2: the fallback classification agrees field-by-field with the spec's
heuristic (thresholds 200/50 for complexity, 100 for task type, the
case-sensitive "creative" test, `ceil(length / 4)` tokens, priority
"balance"), and on "Write me a short poem" it yields
`{complexity: low, task_type: simple_question, requirements: [accuracy],
estimated_tokens: 6, priority: balance}`. -/
theorem fallback_matches_spec :
    (∀ s : String, fallbackAnalysis s = specFallback s) ∧
      fallbackAnalysis "Write me a short poem" = tW := by
  constructor
  · intro s
    simp [fallbackAnalysis, specFallback, ceil_quarter]
  · decide

/-- C3: whenever the remote classification leg fails (unreachable service,
error response, non-JSON payload — all cases where `JSON.parse` yields no
value), `analyzeTask` recovers by returning the deterministic local
fallback, which is itself total and carries all five fields; no error
escapes to the caller. -/
theorem classify_total_on_failure (s : String) :
    analyzeTask none s = (fallbackAnalysis s).toParsed ∧
      ((fallbackAnalysis s).toParsed).hasAllFields = true :=
  ⟨rfl, rfl⟩

/-- A remote response that is valid JSON but carries none of the five
required fields. -/
def blankParsed : ParsedAnalysis :=
  { task_type := none, complexity := none, requirements := none
    estimated_tokens := none, priority := none }

/-- C4 counterexample: a remote response that parses as valid JSON but lacks
all five required fields is returned by `analyzeTask` unchanged — the
fallback is not taken and the result does not have all five fields present,
refuting the claim at this concrete input. -/
theorem parsed_missing_fields_counterexample :
    analyzeTask (some blankParsed) "Summarize this" = blankParsed ∧
      blankParsed.hasAllFields = false :=
  ⟨rfl, rfl⟩

/-- C4 amended: whenever the remote response parses as JSON, `analyzeTask`
returns the parsed object unchanged — the source performs no required-field
validation, and the fallback is used only when the call or the parse fails. -/
theorem analyzeTask_returns_parsed_unchanged (j : ParsedAnalysis) (s : String) :
    analyzeTask (some j) s = j := rfl

/-- C5 counterexample: generalizing the selection over its catalog, an empty
catalog makes it return `none` (JS `undefined` from `modelScores[0]`), not a
ConfigurationError — no such rejection exists in the source. -/
theorem empty_catalog_returns_none : selectOptimalModelWith [] tW = none := rfl

/-- C5 amended: the source's catalog is a fixed, non-empty inline list, so
`selectOptimalModel` always returns a descriptor (never null/undefined); an
empty catalog is unreachable in the code. -/
theorem selectOptimalModel_always_some (t : TaskAnalysis) :
    (selectOptimalModel t).isSome = true := by
  show ((sortDesc (modelScoresWith models t)).head?).isSome = true
  rw [head?_sortDesc]
  exact firstMax?_isSome_of_cons _ _

/-- C6: the selection is a pure function of the analysis and catalog, and
the returned entry scores maximally over the scored catalog; everything
placed before it in catalog order scores strictly less, so ties are broken
in favour of the earliest catalog entry. -/
theorem select_first_maximal (catalog : List ModelDescriptor) (t : TaskAnalysis)
    (sm : ScoredModel) (h : selectOptimalModelWith catalog t = some sm) :
    sm ∈ modelScoresWith catalog t ∧
      (∀ x ∈ modelScoresWith catalog t, x.score ≤ sm.score) ∧
      ∃ pre post, modelScoresWith catalog t = pre ++ sm :: post ∧
        ∀ x ∈ pre, x.score < sm.score := by
  rw [selectOptimalModelWith, head?_sortDesc] at h
  obtain ⟨pre, post, hl, hpre, hall⟩ := firstMax?_spec h
  refine ⟨?_, hall, pre, post, hl, hpre⟩
  rw [hl]
  exact List.mem_append_right pre (List.mem_cons_self sm post)

theorem select_first_maximal_witness :
    smW ∈ modelScoresWith models tW ∧
      (∀ x ∈ modelScoresWith models tW, x.score ≤ smW.score) ∧
      ∃ pre post, modelScoresWith models tW = pre ++ smW :: post ∧
        ∀ x ∈ pre, x.score < smW.score :=
  select_first_maximal models tW smW (by decide)

end CuramMCP

namespace CuramMCP

lemma settleModel_model_id (call : String → Except String String)
    (m : String × String) : (settleModel call m).model_id = m.1 := by
  cases hc : call m.1 <;> simp [settleModel, hc]

lemma settleModel_success (call : String → Except String String)
    (m : String × String) : (settleModel call m).success = (call m.1).isOk := by
  cases hc : call m.1 <;> simp [settleModel, hc, Except.isOk, Except.toBool]

lemma successfulModels_map (call : String → Except String String) :
    ∀ ms : List (String × String),
      successfulModels (ms.map (settleModel call)) =
        (ms.filter (fun m => (call m.1).isOk)).length := by
  intro ms
  induction ms with
  | nil => rfl
  | cons m rest ih =>
    simp only [List.map_cons, successfulModels, List.filter_cons] at *
    rw [settleModel_success]
    cases hc : call m.1 <;> simp [Except.isOk, Except.toBool, hc, ih]

/-- C7: the batch of `compare_all_models` settles every requested model
independently — the result list has exactly one entry per requested model,
in order, each tagged success or failure according to that model's own
outcome, and the summary counts exactly the successful ones; one model's
failure never drops or aborts a sibling's result. -/
theorem compare_all_models_settles_all (ihf : Bool)
    (call : String → Except String String) :
    (compareAllModels ihf call).length = (compareModelsList ihf).length ∧
      (∀ i : Nat, ((compareAllModels ihf call)[i]?).map (fun r => r.model_id) =
        ((compareModelsList ihf)[i]?).map (fun m => m.1)) ∧
      (∀ i : Nat, ((compareAllModels ihf call)[i]?).map (fun r => r.success) =
        ((compareModelsList ihf)[i]?).map (fun m => (call m.1).isOk)) ∧
      successfulModels (compareAllModels ihf call) =
        ((compareModelsList ihf).filter (fun m => (call m.1).isOk)).length := by
  refine ⟨by simp [compareAllModels], ?_, ?_, successfulModels_map call _⟩
  · intro i
    simp only [compareAllModels, List.getElem?_map, Option.map_map]
    cases h : (compareModelsList ihf)[i]? <;>
      simp [h, Function.comp, settleModel_model_id]
  · intro i
    simp only [compareAllModels, List.getElem?_map, Option.map_map]
    cases h : (compareModelsList ihf)[i]? <;>
      simp [h, Function.comp, settleModel_success]

/-- C8: any analysis produced by the fallback heuristic selects a Gemini
model: Gemini Flash when the task text has length at most 100, Gemini Pro
when it is longer; the Hugging Face entries are never selected. -/
theorem fallback_selects_gemini (s : String) :
    (selectOptimalModel (fallbackAnalysis s)).map (fun sm => sm.model.id) =
      some (if s.length ≤ 100 then "gemini_flash" else "gemini_pro") := by
  by_cases h100 : s.length > 100
  · rw [if_neg (by omega : ¬ s.length ≤ 100)]
    by_cases h200 : s.length > 200
    · have e1 : fallbackAnalysis s =
          ⟨"complex_analysis", "high",
            if jsIncludes s "creative" then ["creativity"] else ["accuracy"],
            (s.length + 3) / 4, "balance"⟩ := by
        simp [fallbackAnalysis, h100, h200]
      rw [e1, sel_ignores_extras]
      decide
    · have e1 : fallbackAnalysis s =
          ⟨"complex_analysis", "medium",
            if jsIncludes s "creative" then ["creativity"] else ["accuracy"],
            (s.length + 3) / 4, "balance"⟩ := by
        simp [fallbackAnalysis, h100, h200, (by omega : s.length > 50)]
      rw [e1, sel_ignores_extras]
      decide
  · rw [if_pos (by omega : s.length ≤ 100)]
    by_cases h50 : s.length > 50
    · have h200 : ¬ s.length > 200 := by omega
      have e1 : fallbackAnalysis s =
          ⟨"simple_question", "medium",
            if jsIncludes s "creative" then ["creativity"] else ["accuracy"],
            (s.length + 3) / 4, "balance"⟩ := by
        simp [fallbackAnalysis, h100, h50, h200]
      rw [e1, sel_ignores_extras]
      decide
    · have h200 : ¬ s.length > 200 := by omega
      have e1 : fallbackAnalysis s =
          ⟨"simple_question", "low",
            if jsIncludes s "creative" then ["creativity"] else ["accuracy"],
            (s.length + 3) / 4, "balance"⟩ := by
        simp [fallbackAnalysis, h100, h50, h200]
      rw [e1, sel_ignores_extras]
      decide

/-- C9: the three criterion groups are mutually exclusive within themselves,
so every score lies in [0, 6]; hence the reported
`confidence_score = score / 10` lies in [0, 0.6] and never reaches 1. -/
theorem score_bounded_confidence (t : TaskAnalysis) (m : ModelDescriptor) :
    scoreModel t m ≤ 6 ∧ 0 ≤ confidence_score ⟨m, scoreModel t m⟩ ∧
      confidence_score ⟨m, scoreModel t m⟩ ≤ 3 / 5 ∧
      confidence_score ⟨m, scoreModel t m⟩ < 1 := by
  have h6 := scoreModel_le_six t m
  have hq : ((scoreModel t m : ℚ)) ≤ 6 := by exact_mod_cast h6
  refine ⟨h6, ?_, ?_, ?_⟩
  · unfold confidence_score
    positivity
  · unfold confidence_score
    rw [div_le_iff₀ (by norm_num : (0:ℚ) < 10)]
    linarith
  · unfold confidence_score
    rw [div_lt_one (by norm_num : (0:ℚ) < 10)]
    linarith

/-- C10: the HTTP-server Gemini wrappers catch every vendor failure and
return it as ordinary string data: on any error outcome the result is
exactly the "Gemini Flash Error: "/"Gemini Pro Error: " banner followed by
the vendor (or transport) message, so it always begins with that banner and
downstream consumers receive text, never an exception. -/
theorem gemini_callers_error_strings (f : VendorFailure) :
    callGeminiFlash (Except.error f) = "Gemini Flash Error: " ++ vendorErrorText f ∧
      callGeminiPro (Except.error f) = "Gemini Pro Error: " ++ vendorErrorText f ∧
      (∃ rest, callGeminiFlash (Except.error f) = "Gemini Flash Error: " ++ rest) ∧
      ∃ rest, callGeminiPro (Except.error f) = "Gemini Pro Error: " ++ rest :=
  ⟨rfl, rfl, ⟨vendorErrorText f, rfl⟩, ⟨vendorErrorText f, rfl⟩⟩

end CuramMCP
